import Mathlib

/-!
Shallow embedding of the `cfileshare` CLI client (`src/index.js`) and proofs
about the claims of its specification.

The program is a thin interactive orchestration layer: it prompts the user,
performs one HTTP call per screen, persists a single credential in a local
`.env` file, and navigates between screens.  The embedding below models:

* the on-disk state the program touches (`.env` content, the download
  directory contents) as the structure `Fs`;
* each network call's result as an explicit `Outcome` value (the remote
  service is an opaque external collaborator, so each flow is a function of
  the response it receives);
* each screen-level flow (`accessEndpoint`, `createEndpoint`, `uploadFile`,
  `downloadFile`) as a pure step function from the pre-state and the
  response(s) to a `FlowOut` record holding the post-state, the HTTP
  requests issued, the error message shown (if any), the `setTimeout` delay
  taken, and the next screen;
* the `dotenv.parse` library call used by `uploadFile`/`downloadFile` to
  read the credential back, at the level of lists of characters.

Strings manipulated character by character (file contents, tokens, local
paths) are modelled as `List Char` (`Chars`); strings that are only built
and compared wholesale (URLs, messages, names) stay `String`.
-/

set_option autoImplicit false

namespace CShare

/-- Character strings handled character-by-character are lists of `Char`. -/
abbrev Chars := List Char

/-- Double-quote character (written numerically to keep literals simple). -/
def quoteD : Char := Char.ofNat 34

/-- Single-quote character. -/
def quoteS : Char := Char.ofNat 39

/-- Backtick character. -/
def quoteB : Char := Char.ofNat 96

/-- Whitespace as trimmed by JavaScript `String.prototype.trim` and by the
whitespace classes of `dotenv`'s line regex (space, tab, LF, CR, VT, FF). -/
def isSpaceChar (c : Char) : Bool :=
  c = ' ' || c = '\t' || c = '\n' || c = '\r' || c = Char.ofNat 11 || c = Char.ofNat 12

/-- One of the three quote characters `dotenv` strips from a quoted value. -/
def isQuoteChar (c : Char) : Bool :=
  c = quoteD || c = quoteS || c = quoteB

/-- Key characters of `dotenv`'s line regex character class (word characters,
dot and dash). -/
def isKeyChar (c : Char) : Bool :=
  c.isAlphanum || c = '_' || c = '.' || c = '-'

/-- Drop whitespace from both ends, as JavaScript `trim` / the `\s*` anchors
of the `dotenv` regex do. -/
def trimChars (cs : Chars) : Chars :=
  ((cs.dropWhile isSpaceChar).reverse.dropWhile isSpaceChar).reverse

/-- Expansion of the `\n` / `\r` escape sequences `dotenv` performs inside a
double-quoted value. -/
def expandEscapes : Chars → Chars
  | [] => []
  | '\\' :: 'n' :: rest => '\n' :: expandEscapes rest
  | '\\' :: 'r' :: rest => '\r' :: expandEscapes rest
  | c :: rest => c :: expandEscapes rest

/-- Modelled third-party behaviour: the value handling of `dotenv.parse`
(the `dotenv` npm package used at `src/index.js:261` and `:307`): the raw
text after `=` is trimmed; a value wrapped in matching single, double or
backtick quotes is unquoted (with `\n`/`\r` expansion for double quotes);
an unquoted value is cut at the first `#` (inline comment) and trimmed.
Multiline quoted values are out of scope of this model (the credential file
is written as a single line). -/
def dotenvValue (v : Chars) : Chars :=
  if (trimChars v).isEmpty then []
  else if isQuoteChar ((trimChars v).headD ' ') then
    (if ((trimChars v).tail.drop
          ((trimChars v).tail.takeWhile (fun c => c != (trimChars v).headD ' ')).length).isEmpty then
      trimChars (v.takeWhile (fun c => c != '#'))
    else if (trimChars v).headD ' ' = quoteD then
      expandEscapes ((trimChars v).tail.takeWhile (fun c => c != (trimChars v).headD ' '))
    else
      (trimChars v).tail.takeWhile (fun c => c != (trimChars v).headD ' '))
  else trimChars (v.takeWhile (fun c => c != '#'))

/-- Strip a concrete character-list prefix, or fail. -/
def stripPrefixList : Chars → Chars → Option Chars
  | [], cs => some cs
  | _ :: _, [] => none
  | p :: ps, c :: cs => if c = p then stripPrefixList ps cs else none

/-- Modelled third-party behaviour: one line of `dotenv.parse`: optional
leading whitespace, optional `export `, a key of key characters, `=`
(possibly surrounded by whitespace), then the value.  Lines that do not
match produce no binding. -/
def dotenvParseLine (line : Chars) : Option (Chars × Chars) :=
  let l1 := line.dropWhile isSpaceChar
  let l2 :=
    match stripPrefixList "export ".data l1 with
    | some r => r.dropWhile isSpaceChar
    | none => l1
  let key := l2.takeWhile isKeyChar
  if key.isEmpty then none
  else
    match (l2.drop key.length).dropWhile isSpaceChar with
    | '=' :: v => some (key, dotenvValue v)
    | _ => none

/-- Split file content at newline characters. -/
def splitLines : Chars → List Chars
  | [] => [[]]
  | c :: cs =>
    if c = '\n' then [] :: splitLines cs
    else
      match splitLines cs with
      | [] => [[c]]
      | l :: ls => (c :: l) :: ls

/-- Modelled third-party behaviour: `dotenv.parse` over a whole file:
every line is parsed independently and later bindings of the same key win. -/
def dotenvParse (content : Chars) : List (Chars × Chars) :=
  (splitLines content).filterMap dotenvParseLine

/-- Look a key up in the parse result; the last binding wins, as in the
`dotenv` assignment loop. -/
def dotenvLookup (content key : Chars) : Option Chars :=
  (dotenvParse content).foldl (fun acc kv => if kv.1 = key then some kv.2 else acc) none

/-- Contents written to `.env` by `fs.writeFileSync('.env',
`auth_token=<token>`)` (src/index.js:105 and :162). -/
def saveTokenContent (t : Chars) : Chars :=
  "auth_token=".data ++ t

/-- Credential read back by `dotenv.parse(fs.readFileSync('.env')).auth_token`
(src/index.js:261 and :307); `none` models the JavaScript `undefined` of a
missing key. -/
def loadToken (content : Chars) : Option Chars :=
  dotenvLookup content "auth_token".data

/-! ## Constants and local state (src/index.js lines 13-26) -/

/-- Fixed base URL of the remote service (src/index.js:14). -/
def API_URL : String := "https://filesharingcli-production.up.railway.app"

/-- Fixed download directory under the user's home directory
(src/index.js:15, `path.join(os.homedir(), 'Downloads', 'cfileshare')`). -/
def DOWNLOAD_DIR (homedir : String) : String :=
  homedir ++ "/Downloads/cfileshare"

/-- Upload size cap in bytes (src/index.js:16). -/
def MAX_FILE_SIZE : Nat := 5 * 1024 * 1024

/-- One file record as returned by the service listing (`{ id, file_name }`). -/
structure FileRec where
  id : Nat
  file_name : String
deriving DecidableEq

/-- Local filesystem state the program touches: the `.env` credential file
content (`none` when the file is absent) and the contents of the download
directory `DOWNLOAD_DIR`, keyed by file name (the program always writes
`path.join(DOWNLOAD_DIR, file.file_name)`, src/index.js:318). -/
structure Fs where
  env : Option Chars
  downloads : String → Option (List Nat)

/-- Overwrite of the credential file performed on a truthy `auth_token`
(src/index.js:105, :162): `fs.writeFileSync` replaces the whole file. -/
def writeEnvToken (fs : Fs) (t : Chars) : Fs :=
  { fs with env := some (saveTokenContent t) }

/-- Body of a 2xx response to `GET /site/:name` or `POST /createsite`; the
fields are optional because the program tests them for presence/truthiness. -/
structure AuthBody where
  auth_token : Option Chars
  files : Option (List FileRec)

/-- Result of one `axios` call, as observed through its promise:
a 2xx body, a non-2xx response (`error.response`, with the optional `error`
and `message` fields of its JSON body), no response at all
(`error.request`), or any other thrown error. -/
inductive Outcome (β : Type) where
  | ok (body : β)
  | httpError (status : Nat) (errorField : Option String) (messageField : Option String)
  | networkError
  | otherError (msg : String)

/-- Whether an `axios` call threw (any non-`ok` outcome). -/
def Outcome.isFailure {β : Type} : Outcome β → Bool
  | .ok _ => false
  | _ => true

/-- JavaScript `a || b` over an optional string field: an absent or empty
(falsy) field falls through to the default. -/
def jsOr (o : Option String) (d : String) : String :=
  match o with
  | some s => if s = "" then d else s
  | none => d

/-- The `error.message` the program prints when it falls back from the
response body (`axios` formats HTTP failures as below; the no-response case
carries a network error message). Not reached on `ok`. -/
def axiosCatchMsg {β : Type} : Outcome β → String
  | .ok _ => ""
  | .httpError status e _ => jsOr e ("Request failed with status code " ++ toString status)
  | .networkError => "Network Error"
  | .otherError m => m

/-- Message of the `ENOENT` error thrown by `fs.readFileSync('.env')` when
the credential file is absent. -/
def envReadErrorMsg : String := "ENOENT: no such file or directory, open .env"

/-- JavaScript truthiness of the optional `auth_token` string field: present
and non-empty. -/
def tokenTruthy : Option Chars → Bool
  | none => false
  | some t => !t.isEmpty

/-- Screens of the menu controller.  `halt` is the state in which a screen
function resolves without navigating anywhere (the await chain unwinds and
the process goes idle): this happens on a 2xx `GET /site/:name` response
whose body lacks a truthy `auth_token` (src/index.js:104-107 has no `else`
branch). -/
inductive ScreenState where
  | mainMenu
  | fileManager (endpointName : String) (files : List FileRec) (password : String)
  | halt
deriving DecidableEq

/-- One HTTP request as issued by the client: its URL and the value of the
`Authorization` header, when one is set. -/
structure Request where
  url : String
  auth : Option Chars
deriving DecidableEq

/-- Result of running one screen-level flow: the filesystem afterwards, the
requests issued (in order), the error message printed (if any), the
`setTimeout` delay taken in milliseconds, and the next screen. -/
structure FlowOut where
  fs : Fs
  requests : List Request
  errMsg : Option String
  delayMs : Nat
  next : ScreenState

/-! ## Screen-level flows (src/index.js lines 83-326) -/

/-- The `accessEndpoint` flow (src/index.js:83-134), from the point where
the prompt has produced `endpointName`/`password` and the
`GET /site/:name` call has resolved to `outcome`.  On a 2xx body with a
truthy `auth_token` the credential is saved and the flow enters the file
manager with `response.data.files || []`; every failure prints a message
(404 and 401 get fixed texts, any other status falls back to the body's
`error` field or `Unknown error`), waits 2000 ms, and returns to the main
menu without touching the credential file. -/
def accessEndpoint (fs : Fs) (endpointName password : String)
    (outcome : Outcome AuthBody) : FlowOut :=
  let req : Request := { url := API_URL ++ "/site/" ++ endpointName, auth := none }
  match outcome with
  | .ok body =>
    match body.auth_token with
    | some t =>
      if t.isEmpty then
        { fs := fs, requests := [req], errMsg := none, delayMs := 0, next := .halt }
      else
        { fs := writeEnvToken fs t, requests := [req], errMsg := none, delayMs := 0,
          next := .fileManager endpointName (body.files.getD []) password }
    | none =>
      { fs := fs, requests := [req], errMsg := none, delayMs := 0, next := .halt }
  | .httpError status e _ =>
    if status = 404 then
      { fs := fs, requests := [req], errMsg := some "Endpoint not found",
        delayMs := 2000, next := .mainMenu }
    else if status = 401 then
      { fs := fs, requests := [req], errMsg := some "Invalid password",
        delayMs := 2000, next := .mainMenu }
    else
      { fs := fs, requests := [req], errMsg := some (jsOr e "Unknown error"),
        delayMs := 2000, next := .mainMenu }
  | .networkError =>
    { fs := fs, requests := [req], errMsg := some "Server not responding. Is the server running?",
      delayMs := 2000, next := .mainMenu }
  | .otherError m =>
    { fs := fs, requests := [req], errMsg := some m, delayMs := 2000, next := .mainMenu }

/-- The `createEndpoint` flow (src/index.js:137-186) after the
`POST /createsite` call resolved to `outcome`.  On 2xx the credential is
saved when the body carries a truthy `auth_token`, and the flow always
returns to the main menu with no delay (no auto-entry into the file
manager); on failure a message built from the body's `error` or `message`
field is printed, followed by a 2000 ms delay and the main menu. -/
def createEndpoint (fs : Fs) (endpointName password : String)
    (outcome : Outcome AuthBody) : FlowOut :=
  let req : Request := { url := API_URL ++ "/createsite", auth := none }
  match outcome with
  | .ok body =>
    match body.auth_token with
    | some t =>
      if t.isEmpty then
        { fs := fs, requests := [req], errMsg := none, delayMs := 0, next := .mainMenu }
      else
        { fs := writeEnvToken fs t, requests := [req], errMsg := none, delayMs := 0,
          next := .mainMenu }
    | none =>
      { fs := fs, requests := [req], errMsg := none, delayMs := 0, next := .mainMenu }
  | .httpError _ e m =>
    { fs := fs, requests := [req], errMsg := some (jsOr e (jsOr m "Unknown error")),
      delayMs := 2000, next := .mainMenu }
  | .networkError =>
    { fs := fs, requests := [req], errMsg := some "Server not responding. Is the server running?",
      delayMs := 2000, next := .mainMenu }
  | .otherError m =>
    { fs := fs, requests := [req], errMsg := some m, delayMs := 2000, next := .mainMenu }

/-- Result of the inquirer `validate` callback of the upload prompt. -/
inductive ValidateResult where
  | accept
  | reject (msg : String)
deriving DecidableEq

/-- Whether a validation result is a rejection. -/
def ValidateResult.isReject : ValidateResult → Bool
  | .accept => false
  | .reject _ => true

/-- Input normalisation performed by both the `validate` and the `filter`
callbacks of the upload prompt (src/index.js:243, :255):
`input.trim().replace(/["']/g, '')`. -/
def normalizeInput (input : Chars) : Chars :=
  (trimChars input).filter (fun c => c != quoteD && c != quoteS)

/-- The upload prompt validator (src/index.js:242-254).  `stat` models the
local filesystem: `stat p = some size` when the path exists with that size
in bytes, `none` when `fs.existsSync` is false (existence and `statSync`
are collapsed into one lookup). -/
def uploadFileValidate (stat : Chars → Option Nat) (input : Chars) : ValidateResult :=
  let p := normalizeInput input
  if p.isEmpty then .reject "File path is required"
  else
    match stat p with
    | none => .reject "File does not exist"
    | some size =>
      if MAX_FILE_SIZE < size then .reject "File size exceeds maximum limit of 5MB"
      else .accept

/-- The `uploadFile` flow (src/index.js:235-289) after the prompt produced a
validated `filePath`, given the outcome of the `POST /upload/:name` call and
of the refetching `GET /site/:name` call.  The credential file is read
first (`fs.readFileSync('.env')` throws when absent, landing in the catch
that prints the message and re-enters the file manager with an empty list);
otherwise the upload request is issued with whatever `dotenv.parse` found
under `auth_token` (possibly nothing).  On upload success the file list is
re-fetched and the file manager is entered with it; any failure is caught,
printed, and the file manager is re-entered with the empty fallback list. -/
def uploadFile (fs : Fs) (endpointName password : String) (filePath : Chars)
    (uploadOutcome : Outcome Unit) (siteOutcome : Outcome AuthBody) : FlowOut :=
  match fs.env with
  | none =>
    { fs := fs, requests := [], errMsg := some envReadErrorMsg, delayMs := 0,
      next := .fileManager endpointName [] password }
  | some content =>
    let upReq : Request := { url := API_URL ++ "/upload/" ++ endpointName,
                             auth := loadToken content }
    let siteReq : Request := { url := API_URL ++ "/site/" ++ endpointName, auth := none }
    match uploadOutcome with
    | .ok _ =>
      match siteOutcome with
      | .ok body =>
        { fs := fs, requests := [upReq, siteReq], errMsg := none, delayMs := 0,
          next := .fileManager endpointName (body.files.getD []) password }
      | e =>
        { fs := fs, requests := [upReq, siteReq], errMsg := some (axiosCatchMsg e),
          delayMs := 0, next := .fileManager endpointName [] password }
    | e =>
      { fs := fs, requests := [upReq], errMsg := some (axiosCatchMsg e), delayMs := 0,
        next := .fileManager endpointName [] password }

/-- The `downloadFile` flow (src/index.js:292-326) after the prompt selected
`fileIndex` from `files`.  The credential file is read first (absence lands
in the catch, which prints the message and re-enters the file manager with
the same `files` list).  The `GET /getfile/:id` request carries the loaded
credential; on success the response bytes are written to
`path.join(DOWNLOAD_DIR, file.file_name)` — overwriting that entry of the
download directory — and the file manager is re-entered with the same,
locally retained `files` list (no re-fetch).  An out-of-range index (not
producible through the prompt) throws on `selectedFile.id` and lands in the
same catch. -/
def downloadFile (fs : Fs) (endpointName : String) (files : List FileRec)
    (password : String) (fileIndex : Nat) (outcome : Outcome (List Nat)) : FlowOut :=
  match fs.env with
  | none =>
    { fs := fs, requests := [], errMsg := some envReadErrorMsg, delayMs := 0,
      next := .fileManager endpointName files password }
  | some content =>
    match files[fileIndex]? with
    | none =>
      { fs := fs, requests := [],
        errMsg := some "Cannot read properties of undefined (reading id)",
        delayMs := 0, next := .fileManager endpointName files password }
    | some file =>
      let req : Request := { url := API_URL ++ "/getfile/" ++ toString file.id,
                             auth := loadToken content }
      match outcome with
      | .ok bytes =>
        { fs := { fs with downloads := fun n =>
                    if n = file.file_name then some bytes else fs.downloads n },
          requests := [req], errMsg := none, delayMs := 0,
          next := .fileManager endpointName files password }
      | e =>
        { fs := fs, requests := [req], errMsg := some (axiosCatchMsg e), delayMs := 0,
          next := .fileManager endpointName files password }

/-! ## Startup prelude (src/index.js lines 19-36) -/

/-- How module evaluation of the startup prelude ends. -/
inductive StartupOutcome where
  | screensShown
  | loggedExitOne
  | uncaughtReferenceError
deriving DecidableEq

/-- The try/catch around the download-directory creation (src/index.js:19-26)
as a function of whether the directory already exists, whether `mkdirSync`
throws, and whether the `styles` binding is already initialised when the
catch handler runs: the handler's first statement evaluates
`styles.error(...)`; if the `const styles` declaration has not executed yet
that access throws a `ReferenceError` out of the catch block, the module
evaluation aborts with an uncaught exception and Node exits non-zero
without printing the formatted message or reaching `process.exit(1)`. -/
def startupPrelude (dirExists mkdirFails stylesInitializedHere : Bool) : StartupOutcome :=
  if dirExists then .screensShown
  else if mkdirFails then
    (if stylesInitializedHere then .loggedExitOne else .uncaughtReferenceError)
  else .screensShown

/-- In the source, `const styles` is declared at src/index.js:29, after the
try/catch at lines 19-26, so by JavaScript temporal-dead-zone semantics it
is not yet initialised when that catch handler runs. -/
def stylesInitializedAtLine24 : Bool := false

/-- Module startup as written: the prelude runs with `styles` still
uninitialised at the catch site. -/
def startup (dirExists mkdirFails : Bool) : StartupOutcome :=
  startupPrelude dirExists mkdirFails stylesInitializedAtLine24

/-! ## Helper lemmas about the character-level functions -/

/-- Tokens whose characters survive `dotenv` parsing untouched: no
whitespace (hence no newline), no `#`, and no quote character. -/
def goodTokenChar (c : Char) : Bool :=
  !(isSpaceChar c) && (c != '#') && !(isQuoteChar c)

theorem goodTokenChar_parts {c : Char} (h : goodTokenChar c = true) :
    isSpaceChar c = false ∧ (c != '#') = true ∧ isQuoteChar c = false := by
  unfold goodTokenChar at h
  cases hs : isSpaceChar c <;> cases hh : (c != '#') <;> cases hq : isQuoteChar c <;>
    rw [hs, hh, hq] at h <;> simp_all

theorem goodTokenChar_ne_newline {c : Char} (h : goodTokenChar c = true) : c ≠ '\n' := by
  intro hc
  rw [hc] at h
  exact absurd h (by decide)

theorem dropWhile_eq_self_of_head (p : Char → Bool) (cs : Chars)
    (h : ∀ c ∈ cs, p c = false) : cs.dropWhile p = cs := by
  cases cs with
  | nil => rfl
  | cons c t => simp [List.dropWhile_cons, h c (List.mem_cons_self c t)]

theorem takeWhile_all (p : Char → Bool) (cs : Chars)
    (h : ∀ c ∈ cs, p c = true) : cs.takeWhile p = cs := by
  induction cs with
  | nil => rfl
  | cons c t ih =>
    simp only [List.takeWhile_cons, h c (List.mem_cons_self c t), if_true]
    exact congrArg (c :: ·) (ih fun d hd => h d (List.mem_cons_of_mem c hd))

theorem trimChars_eq_self (cs : Chars) (h : ∀ c ∈ cs, isSpaceChar c = false) :
    trimChars cs = cs := by
  unfold trimChars
  rw [dropWhile_eq_self_of_head isSpaceChar cs h]
  rw [dropWhile_eq_self_of_head isSpaceChar cs.reverse
        (fun c hc => h c (List.mem_reverse.mp hc))]
  exact List.reverse_reverse cs

theorem splitLines_no_newline (cs : Chars) (h : ∀ c ∈ cs, c ≠ '\n') :
    splitLines cs = [cs] := by
  induction cs with
  | nil => rfl
  | cons c t ih =>
    have hc : c ≠ '\n' := h c (List.mem_cons_self c t)
    have ht := ih fun d hd => h d (List.mem_cons_of_mem c hd)
    simp [splitLines, hc, ht]

theorem dotenvValue_good (t : Chars) (hne : t ≠ [])
    (hg : ∀ c ∈ t, goodTokenChar c = true) : dotenvValue t = t := by
  have hsp : ∀ c ∈ t, isSpaceChar c = false := fun c hc => (goodTokenChar_parts (hg c hc)).1
  have htrim : trimChars t = t := trimChars_eq_self t hsp
  have htake : t.takeWhile (fun c => c != '#') = t :=
    takeWhile_all _ t (fun c hc => (goodTokenChar_parts (hg c hc)).2.1)
  obtain ⟨c, rest, rfl⟩ : ∃ c rest, t = c :: rest := by
    cases t with
    | nil => exact absurd rfl hne
    | cons c rest => exact ⟨c, rest, rfl⟩
  have hq : isQuoteChar c = false :=
    (goodTokenChar_parts (hg c (List.mem_cons_self c rest))).2.2
  unfold dotenvValue
  rw [htrim]
  simp [hq, htake, htrim]

/-- Parsing the line the client writes recovers the `auth_token` key and the
`dotenv`-processed value; this is a pure computation for any tail `t`. -/
theorem dotenvParseLine_saveToken (t : Chars) :
    dotenvParseLine (saveTokenContent t) = some ("auth_token".data, dotenvValue t) := rfl

theorem loadToken_saveToken (t : Chars) (hne : t ≠ [])
    (hg : ∀ c ∈ t, goodTokenChar c = true) :
    loadToken (saveTokenContent t) = some t := by
  have hnl : ∀ c ∈ saveTokenContent t, c ≠ '\n' := by
    intro c hc
    rcases List.mem_append.mp hc with h1 | h2
    · intro hEq
      rw [hEq] at h1
      exact absurd h1 (by decide)
    · exact goodTokenChar_ne_newline (hg c h2)
  unfold loadToken dotenvLookup dotenvParse
  rw [splitLines_no_newline _ hnl]
  rw [List.filterMap_cons, dotenvParseLine_saveToken]
  simp [List.filterMap_nil, List.foldl]
  exact dotenvValue_good t hne hg

/-! ## Concrete fixtures used by witnesses and counterexamples -/

/-- Filesystem with no credential file and an empty download directory. -/
def fsEmpty : Fs := { env := none, downloads := fun _ => none }

/-- Filesystem whose credential file holds the token `abc`. -/
def fsWithTok : Fs := { env := some (saveTokenContent "abc".data), downloads := fun _ => none }

/-- Filesystem whose credential file exists but holds no `auth_token` key. -/
def fsMalformed : Fs := { env := some "foo=bar".data, downloads := fun _ => none }

/-- A one-element file listing, as in the spec's end-to-end scenario. -/
def filesA : List FileRec := [{ id := 1, file_name := "a.txt" }]

/-- Another one-element file listing. -/
def filesB : List FileRec := [{ id := 2, file_name := "b.txt" }]

/-- A 2xx body carrying a token and the `filesA` listing. -/
def bodyWithToken : AuthBody :=
  { auth_token := some "abc".data, files := some filesA }

/-- A 2xx body with no `auth_token` field at all. -/
def bodyNoToken : AuthBody := { auth_token := none, files := some [] }

/-- A 2xx body whose `auth_token` is the empty (falsy) string. -/
def bodyEmptyToken : AuthBody := { auth_token := some [], files := none }

/-- A 2xx body carrying a token and the `filesB` listing. -/
def bodyB : AuthBody := { auth_token := some "t".data, files := some filesB }

/-- Filesystem with token `abc` saved and a pre-existing downloaded
`a.txt`. -/
def fsPre : Fs :=
  { env := some (saveTokenContent "abc".data),
    downloads := fun n => if n = "a.txt" then some [0] else none }

/-- A tiny local filesystem for the validator: one 100-byte file `f.txt`. -/
def statF (p : Chars) : Option Nat :=
  if p = "f.txt".data then some 100 else none

/-! ## Claim C2 -/

/-- C2: for every local path given to the upload validator (modulo the
trim/quote normalisation both the validator and the filter apply, and given
that the empty path names no existing file, as under Node), a path that
does not exist is rejected; an existing path whose size strictly exceeds
`5 * 1024 * 1024` bytes is rejected; an existing path at or below that
size is accepted. -/
theorem c2_upload_validator (stat : Chars → Option Nat) (input : Chars)
    (hempty : stat [] = none) :
    (stat (normalizeInput input) = none →
      (uploadFileValidate stat input).isReject = true) ∧
    (∀ size, stat (normalizeInput input) = some size →
      (MAX_FILE_SIZE < size → (uploadFileValidate stat input).isReject = true) ∧
      (size ≤ MAX_FILE_SIZE → uploadFileValidate stat input = .accept)) := by
  by_cases hp : (normalizeInput input).isEmpty
  · have hpe : normalizeInput input = [] := by
      cases hni : normalizeInput input with
      | nil => rfl
      | cons c t => rw [hni] at hp; simp at hp
    constructor
    · intro _
      simp [uploadFileValidate, hp, ValidateResult.isReject]
    · intro size hsize
      rw [hpe, hempty] at hsize
      cases hsize
  · constructor
    · intro hnone
      simp [uploadFileValidate, hp, hnone, ValidateResult.isReject]
    · intro size hsize
      constructor
      · intro hlt
        simp [uploadFileValidate, hp, hsize, hlt, ValidateResult.isReject]
      · intro hle
        have hnlt : ¬ MAX_FILE_SIZE < size := Nat.not_lt.mpr hle
        simp [uploadFileValidate, hp, hsize, hnlt]

/-- Witness for C2: an existing 100-byte file is accepted, and a
non-existing path is rejected. -/
theorem c2_witness :
    statF [] = none ∧
    statF (normalizeInput "f.txt".data) = some 100 ∧
    uploadFileValidate statF "f.txt".data = .accept ∧
    (uploadFileValidate (fun _ => none) "f.txt".data).isReject = true :=
  ⟨by decide, by decide,
    ((c2_upload_validator statF "f.txt".data (by decide)).2 100 (by decide)).2 (by decide),
    (c2_upload_validator (fun _ => none) "f.txt".data rfl).1 rfl⟩

/-! ## Claim C3 -/

/-- C3 counterexample: the claim quantifies over every token string, but
saving the three-character token `'x'` (single-quote, `x`, single-quote)
and loading it back yields just `x`: `dotenv.parse` strips the matching
quotes, so the round trip is not the identity on all tokens. -/
theorem c3_counterexample :
    loadToken (saveTokenContent (quoteS :: 'x' :: quoteS :: []))
      ≠ some (quoteS :: 'x' :: quoteS :: []) := by decide

/-- C3 amended: for every nonempty token containing no whitespace, newline,
`#`, or quote character (every character survives `dotenv` parsing), saving
then loading returns exactly the token; and saving overwrites the single
credential file, so after saving `t2` over `t1` the stored content is
exactly that of `t2` and every subsequent load returns `t2`. -/
theorem c3_amended (t1 t2 : Chars) (fs : Fs) (hne : t2 ≠ [])
    (hg : ∀ c ∈ t2, goodTokenChar c = true) :
    loadToken (saveTokenContent t2) = some t2 ∧
    (writeEnvToken (writeEnvToken fs t1) t2).env = (writeEnvToken fs t2).env ∧
    (writeEnvToken (writeEnvToken fs t1) t2).env = some (saveTokenContent t2) :=
  ⟨loadToken_saveToken t2 hne hg, rfl, rfl⟩

/-- Witness for C3: round trip and overwrite at the concrete token `abc`
saved over the token `old`. -/
theorem c3_witness :
    ("abc".data ≠ [] ∧ ∀ c ∈ "abc".data, goodTokenChar c = true) ∧
    loadToken (saveTokenContent "abc".data) = some "abc".data ∧
    (writeEnvToken (writeEnvToken fsEmpty "old".data) "abc".data).env
      = some (saveTokenContent "abc".data) :=
  ⟨⟨by decide, by decide⟩,
    (c3_amended "old".data "abc".data fsEmpty (by decide) (by decide)).1,
    (c3_amended "old".data "abc".data fsEmpty (by decide) (by decide)).2.2⟩

/-! ## Claim C4 -/

/-- C4: every failed access-endpoint attempt (404, 401, network failure, or
any other non-2xx outcome) leaves the filesystem untouched (no credential is
persisted), prints an error message (with the fixed texts for 404, 401 and
the no-response case), waits 2000 ms, and returns to the main menu. -/
theorem c4_access_failure (fs : Fs) (name pwd : String) (o : Outcome AuthBody)
    (h : o.isFailure = true) :
    (accessEndpoint fs name pwd o).fs = fs ∧
    (accessEndpoint fs name pwd o).errMsg.isSome = true ∧
    (accessEndpoint fs name pwd o).delayMs = 2000 ∧
    (accessEndpoint fs name pwd o).next = .mainMenu ∧
    (∀ e m, o = .httpError 404 e m →
      (accessEndpoint fs name pwd o).errMsg = some "Endpoint not found") ∧
    (∀ e m, o = .httpError 401 e m →
      (accessEndpoint fs name pwd o).errMsg = some "Invalid password") ∧
    (o = .networkError →
      (accessEndpoint fs name pwd o).errMsg
        = some "Server not responding. Is the server running?") := by
  cases o with
  | ok body => simp [Outcome.isFailure] at h
  | httpError st e m =>
    by_cases h404 : st = 404 <;> by_cases h401 : st = 401 <;>
      simp_all [accessEndpoint]
  | networkError => simp [accessEndpoint]
  | otherError m => simp [accessEndpoint]

/-- Witness for C4: a 404 response at a concrete state prints the
not-found message, waits 2 seconds, returns to the main menu, and leaves
the (absent) credential file absent. -/
theorem c4_witness :
    Outcome.isFailure (Outcome.httpError 404 none none : Outcome AuthBody) = true ∧
    (accessEndpoint fsEmpty "demo" "pw" (.httpError 404 none none)).fs = fsEmpty ∧
    (accessEndpoint fsEmpty "demo" "pw" (.httpError 404 none none)).errMsg
      = some "Endpoint not found" ∧
    (accessEndpoint fsEmpty "demo" "pw" (.httpError 404 none none)).delayMs = 2000 ∧
    (accessEndpoint fsEmpty "demo" "pw" (.httpError 404 none none)).next = .mainMenu := by
  have h := c4_access_failure fsEmpty "demo" "pw" (.httpError 404 none none) rfl
  exact ⟨rfl, h.1, h.2.2.2.2.1 none none rfl, h.2.2.1, h.2.2.2.1⟩

/-! ## Claim C5 -/

/-- C5 counterexample: a successful (2xx) access-endpoint response whose
body has no `auth_token` field does not transition to the file manager at
all — the flow resolves with no navigation (src/index.js:104-107 has no
`else` branch), refuting the claim that every 2xx response enters the file
manager. -/
theorem c5_counterexample :
    (accessEndpoint fsEmpty "demo" "pw" (.ok bodyNoToken)).next = .halt ∧
    (accessEndpoint fsEmpty "demo" "pw" (.ok bodyNoToken)).next
      ≠ .fileManager "demo" [] "pw" := by decide

/-- C5 amended: every successful (2xx) access-endpoint response whose body
carries a truthy `auth_token` transitions to the file manager for the
accessed endpoint, displaying `response.data.files || []`. -/
theorem c5_amended (fs : Fs) (name pwd : String) (body : AuthBody) (t : Chars)
    (h : body.auth_token = some t) (hne : t ≠ []) :
    (accessEndpoint fs name pwd (.ok body)).next
      = .fileManager name (body.files.getD []) pwd := by
  have hie : t.isEmpty = false := by
    cases t
    · exact absurd rfl hne
    · rfl
  simp [accessEndpoint, h, hie]

/-- Witness for C5: a 2xx body with token `abc` and one file enters the
file manager. -/
theorem c5_witness :
    bodyWithToken.auth_token = some "abc".data ∧
    (accessEndpoint fsEmpty "demo" "pw" (.ok bodyWithToken)).next
      = .fileManager "demo" (bodyWithToken.files.getD []) "pw" :=
  ⟨rfl, c5_amended fsEmpty "demo" "pw" bodyWithToken "abc".data rfl (by decide)⟩

/-! ## Claim C1 -/

/-- C1 counterexample: a successful download at a concrete state returns to
the file manager with exactly the locally retained `filesA` list and issues
only the `GET /getfile/1` request — no access-endpoint (`/site/...`)
re-fetch happens, refuting the claim that both sub-flows return with a
freshly re-fetched list. -/
theorem c1_counterexample :
    (downloadFile fsWithTok "demo" filesA "pw" 0 (.ok [104])).next
      = .fileManager "demo" filesA "pw" ∧
    (downloadFile fsWithTok "demo" filesA "pw" 0 (.ok [104])).requests
      = [{ url := API_URL ++ "/getfile/1", auth := some "abc".data }] := by decide

/-- C1 amended: after an upload completes successfully the client re-fetches
the file list via the access endpoint (`GET /site/:name`) and returns to
the file manager with the fetched list; after a download completes
successfully the client returns to the file manager with the same locally
retained list it was given, issuing no access-endpoint call. -/
theorem c1_amended (fs : Fs) (name pwd : String) (fp content : Chars)
    (body : AuthBody) (files : List FileRec) (i : Nat) (f : FileRec) (bytes : List Nat)
    (henv : fs.env = some content) (hf : files[i]? = some f) :
    ((uploadFile fs name pwd fp (.ok ()) (.ok body)).next
        = .fileManager name (body.files.getD []) pwd ∧
      (uploadFile fs name pwd fp (.ok ()) (.ok body)).requests
        = [{ url := API_URL ++ "/upload/" ++ name, auth := loadToken content },
           { url := API_URL ++ "/site/" ++ name, auth := none }]) ∧
    ((downloadFile fs name files pwd i (.ok bytes)).next = .fileManager name files pwd ∧
      (downloadFile fs name files pwd i (.ok bytes)).requests
        = [{ url := API_URL ++ "/getfile/" ++ toString f.id, auth := loadToken content }]) := by
  constructor
  · constructor <;> simp [uploadFile, henv]
  · constructor <;> simp [downloadFile, henv, hf]

/-- Witness for C1 amended: the upload and download flows at concrete
inputs. -/
theorem c1_witness :
    fsWithTok.env = some (saveTokenContent "abc".data) ∧
    filesA[0]? = some { id := 1, file_name := "a.txt" } ∧
    (uploadFile fsWithTok "demo" "pw" [] (.ok ()) (.ok bodyWithToken)).next
      = .fileManager "demo" (bodyWithToken.files.getD []) "pw" ∧
    (downloadFile fsWithTok "demo" filesA "pw" 0 (.ok [104])).requests
      = [{ url := API_URL ++ "/getfile/" ++ toString (1 : Nat),
           auth := loadToken (saveTokenContent "abc".data) }] := by
  have h := c1_amended fsWithTok "demo" "pw" [] (saveTokenContent "abc".data)
    bodyWithToken filesA 0 { id := 1, file_name := "a.txt" } [104] rfl rfl
  exact ⟨rfl, rfl, h.1.1, h.2.2⟩

/-! ## Claim C6 -/

/-- C6 (code bug evaluation): when the download directory is absent and
`mkdirSync` throws at startup, module evaluation ends in an uncaught
`ReferenceError` (the catch handler reads `styles` before its `const`
declaration at src/index.js:29 has run), not in the intended
logged-message-and-`process.exit(1)` path; no screen is shown either way.
When directory creation succeeds (or the directory already exists), the
screens are reached. -/
theorem c6_startup_eval :
    startup false true = .uncaughtReferenceError ∧
    startup false true ≠ .loggedExitOne ∧
    startup false false = .screensShown ∧
    startup true true = .screensShown := by decide

/-! ## Claim C7 -/

/-- C7 counterexample: with a malformed credential file (`foo=bar`, no
`auth_token` binding), a selected upload is NOT aborted: the upload request
is issued with no credential, and when the service accepts it the flow
completes with no error message and a refreshed file manager — refuting the
claim that a malformed credential file aborts the in-progress operation
with an error message. -/
theorem c7_counterexample :
    loadToken "foo=bar".data = none ∧
    (uploadFile fsMalformed "demo" "pw" [] (.ok ()) (.ok bodyB)).errMsg = none ∧
    (uploadFile fsMalformed "demo" "pw" [] (.ok ()) (.ok bodyB)).requests
      = [{ url := API_URL ++ "/upload/demo", auth := none },
         { url := API_URL ++ "/site/demo", auth := none }] ∧
    (uploadFile fsMalformed "demo" "pw" [] (.ok ()) (.ok bodyB)).next
      = .fileManager "demo" filesB "pw" := by decide

/-- C7 amended: if the credential file is absent, the read fails and the
operation is aborted (no request issued) with an error message, returning
to the file manager — with the empty fallback list for upload and the
retained list for download — and without crashing; if the file is present
but holds no parseable `auth_token`, the operation is not aborted: the
request is issued with no credential, and any resulting failure is caught,
printed, and resolved by returning to the file manager with the empty
fallback list. -/
theorem c7_amended (fs : Fs) (name pwd : String) (fp content : Chars)
    (files : List FileRec) (i : Nat)
    (upOut : Outcome Unit) (siteOut : Outcome AuthBody) (dlOut : Outcome (List Nat)) :
    (fs.env = none →
      ((uploadFile fs name pwd fp upOut siteOut).errMsg = some envReadErrorMsg ∧
        (uploadFile fs name pwd fp upOut siteOut).requests = [] ∧
        (uploadFile fs name pwd fp upOut siteOut).next = .fileManager name [] pwd) ∧
      ((downloadFile fs name files pwd i dlOut).errMsg = some envReadErrorMsg ∧
        (downloadFile fs name files pwd i dlOut).requests = [] ∧
        (downloadFile fs name files pwd i dlOut).next = .fileManager name files pwd)) ∧
    (fs.env = some content → loadToken content = none →
      (uploadFile fs name pwd fp upOut siteOut).requests.head?
          = some { url := API_URL ++ "/upload/" ++ name, auth := none } ∧
      (upOut.isFailure = true →
        (uploadFile fs name pwd fp upOut siteOut).errMsg.isSome = true ∧
        (uploadFile fs name pwd fp upOut siteOut).next = .fileManager name [] pwd)) := by
  constructor
  · intro henv
    refine ⟨⟨?_, ?_, ?_⟩, ⟨?_, ?_, ?_⟩⟩ <;> simp [uploadFile, downloadFile, henv]
  · intro henv htok
    constructor
    · cases upOut with
      | ok u => cases siteOut <;> simp [uploadFile, henv, htok]
      | httpError st e m => simp [uploadFile, henv, htok]
      | networkError => simp [uploadFile, henv, htok]
      | otherError m => simp [uploadFile, henv, htok]
    · intro hfail
      cases upOut with
      | ok u => simp [Outcome.isFailure] at hfail
      | httpError st e m => exact ⟨by simp [uploadFile, henv], by simp [uploadFile, henv]⟩
      | networkError => exact ⟨by simp [uploadFile, henv], by simp [uploadFile, henv]⟩
      | otherError m => exact ⟨by simp [uploadFile, henv], by simp [uploadFile, henv]⟩

/-- Witness for C7 amended: the absent-file case for upload and download,
and the malformed-file case with a failed upload, at concrete inputs. -/
theorem c7_witness :
    fsEmpty.env = none ∧
    filesA[0]? = some { id := 1, file_name := "a.txt" } ∧
    (uploadFile fsEmpty "demo" "pw" [] (.ok ()) (.ok bodyB)).next
      = .fileManager "demo" [] "pw" ∧
    (downloadFile fsEmpty "demo" filesA "pw" 0 (.ok [104])).next
      = .fileManager "demo" filesA "pw" ∧
    (uploadFile fsMalformed "demo" "pw" [] .networkError (.ok bodyB)).errMsg.isSome
      = true := by
  have h1 := c7_amended fsEmpty "demo" "pw" [] [] filesA 0
    (.ok ()) (.ok bodyB) (.ok [104])
  have h2 := c7_amended fsMalformed "demo" "pw" [] "foo=bar".data filesA 0
    .networkError (.ok bodyB) (.ok [104])
  exact ⟨rfl, rfl, ((h1.1 rfl).1).2.2, ((h1.1 rfl).2).2.2, ((h2.2 rfl (by decide)).2 rfl).1⟩

/-! ## Claim C8 -/

/-- C8: every successful (2xx) create-endpoint call returns to the main
menu with no delay and without entering the file manager, saving the
returned credential when the body carries one (truthy); every failed
create-endpoint call prints a message, waits 2000 ms, leaves the
filesystem untouched, and returns to the main menu. -/
theorem c8_create_endpoint (fs : Fs) (name pwd : String) (body : AuthBody)
    (t : Chars) (o : Outcome AuthBody) :
    ((createEndpoint fs name pwd (.ok body)).next = .mainMenu ∧
      (createEndpoint fs name pwd (.ok body)).delayMs = 0) ∧
    (body.auth_token = some t → t ≠ [] →
      (createEndpoint fs name pwd (.ok body)).fs.env = some (saveTokenContent t)) ∧
    (o.isFailure = true →
      (createEndpoint fs name pwd o).next = .mainMenu ∧
      (createEndpoint fs name pwd o).delayMs = 2000 ∧
      (createEndpoint fs name pwd o).fs = fs ∧
      (createEndpoint fs name pwd o).errMsg.isSome = true) := by
  refine ⟨?_, ?_, ?_⟩
  · cases hb : body.auth_token with
    | none => simp [createEndpoint, hb]
    | some t' => by_cases ht : t'.isEmpty <;> simp [createEndpoint, hb, ht]
  · intro hb hne
    have hie : t.isEmpty = false := by
      cases t
      · exact absurd rfl hne
      · rfl
    simp [createEndpoint, hb, hie, writeEnvToken]
  · intro hfail
    cases o with
    | ok b => simp [Outcome.isFailure] at hfail
    | httpError st e m => simp [createEndpoint]
    | networkError => simp [createEndpoint]
    | otherError m => simp [createEndpoint]

/-- Witness for C8: a successful creation returning token `abc` saves it
and goes to the main menu; a network failure waits 2 seconds. -/
theorem c8_witness :
    bodyWithToken.auth_token = some "abc".data ∧
    (createEndpoint fsEmpty "demo" "pw" (.ok bodyWithToken)).next = .mainMenu ∧
    (createEndpoint fsEmpty "demo" "pw" (.ok bodyWithToken)).fs.env
      = some (saveTokenContent "abc".data) ∧
    (createEndpoint fsEmpty "demo" "pw" (.networkError : Outcome AuthBody)).delayMs
      = 2000 := by
  have h := c8_create_endpoint fsEmpty "demo" "pw" bodyWithToken "abc".data .networkError
  exact ⟨rfl, h.1.1, h.2.1 rfl (by decide), (h.2.2 rfl).2.1⟩

/-! ## Claim C9 -/

/-- C9: for every selected file record, when the credential file holds a
token, the download flow issues exactly one request, `GET /getfile/<id>`
with the loaded credential as the `Authorization` header, and on success
writes the response bytes into the download directory under the file's
original name — overwriting whatever entry of that name existed (the
pre-state of that entry is unconstrained) and touching no other entry. -/
theorem c9_download (fs : Fs) (name pwd : String) (files : List FileRec) (i : Nat)
    (f : FileRec) (content tok : Chars) (bytes : List Nat)
    (hf : files[i]? = some f) (henv : fs.env = some content)
    (htok : loadToken content = some tok) :
    (downloadFile fs name files pwd i (.ok bytes)).requests
      = [{ url := API_URL ++ "/getfile/" ++ toString f.id, auth := some tok }] ∧
    (downloadFile fs name files pwd i (.ok bytes)).fs.downloads f.file_name
      = some bytes ∧
    (∀ g, g ≠ f.file_name →
      (downloadFile fs name files pwd i (.ok bytes)).fs.downloads g
        = fs.downloads g) ∧
    (downloadFile fs name files pwd i (.ok bytes)).next
      = .fileManager name files pwd := by
  refine ⟨?_, ?_, ?_, ?_⟩
  · simp [downloadFile, henv, hf, htok]
  · simp [downloadFile, henv, hf]
  · intro g hg
    simp [downloadFile, henv, hf, hg]
  · simp [downloadFile, henv, hf]

/-- Witness for C9: downloading `a.txt` (id 1) with token `abc` over a
pre-existing `a.txt` entry replaces its bytes. -/
theorem c9_witness :
    filesA[0]? = some { id := 1, file_name := "a.txt" } ∧
    loadToken (saveTokenContent "abc".data) = some "abc".data ∧
    fsPre.downloads "a.txt" = some [0] ∧
    (downloadFile fsPre "demo" filesA "pw" 0 (.ok [104])).requests
      = [{ url := API_URL ++ "/getfile/" ++ toString (1 : Nat), auth := some "abc".data }] ∧
    (downloadFile fsPre "demo" filesA "pw" 0 (.ok [104])).fs.downloads "a.txt"
      = some [104] := by
  have h := c9_download fsPre "demo" "pw" filesA 0 { id := 1, file_name := "a.txt" }
    (saveTokenContent "abc".data) "abc".data [104] rfl rfl (by decide)
  exact ⟨rfl, by decide, rfl, h.1, h.2.1⟩

/-! ## Claim C10 -/

/-- C10: the credential file is written by an access- or create-endpoint
call exactly when the 2xx body carries a truthy `auth_token` (in which case
it then holds `auth_token=<token>`); a 2xx body without one, and every
failed call, leave the credential file unchanged. -/
theorem c10_credential_frame (fs : Fs) (name pwd : String) (body : AuthBody)
    (t : Chars) (o : Outcome AuthBody) :
    (tokenTruthy body.auth_token = false →
      (accessEndpoint fs name pwd (.ok body)).fs.env = fs.env ∧
      (createEndpoint fs name pwd (.ok body)).fs.env = fs.env) ∧
    (body.auth_token = some t → t ≠ [] →
      (accessEndpoint fs name pwd (.ok body)).fs.env = some (saveTokenContent t) ∧
      (createEndpoint fs name pwd (.ok body)).fs.env = some (saveTokenContent t)) ∧
    (o.isFailure = true →
      (accessEndpoint fs name pwd o).fs.env = fs.env ∧
      (createEndpoint fs name pwd o).fs.env = fs.env) := by
  refine ⟨?_, ?_, ?_⟩
  · intro hfalse
    cases hb : body.auth_token with
    | none => simp [accessEndpoint, createEndpoint, hb]
    | some t' =>
      rw [hb] at hfalse
      simp [tokenTruthy] at hfalse
      simp [accessEndpoint, createEndpoint, hb, hfalse]
  · intro hb hne
    have hie : t.isEmpty = false := by
      cases t
      · exact absurd rfl hne
      · rfl
    simp [accessEndpoint, createEndpoint, hb, hie, writeEnvToken]
  · intro hfail
    cases o with
    | ok b => simp [Outcome.isFailure] at hfail
    | httpError st e m =>
      by_cases h404 : st = 404 <;> by_cases h401 : st = 401 <;>
        simp [accessEndpoint, createEndpoint, h404, h401]
    | networkError => simp [accessEndpoint, createEndpoint]
    | otherError m => simp [accessEndpoint, createEndpoint]

/-- Witness for C10: a falsy (empty) token leaves the absent credential
file absent; a truthy token `abc` writes it. -/
theorem c10_witness :
    tokenTruthy bodyEmptyToken.auth_token = false ∧
    (accessEndpoint fsEmpty "demo" "pw" (.ok bodyEmptyToken)).fs.env = none ∧
    bodyWithToken.auth_token = some "abc".data ∧
    (createEndpoint fsEmpty "demo" "pw" (.ok bodyWithToken)).fs.env
      = some (saveTokenContent "abc".data) := by
  have h1 := c10_credential_frame fsEmpty "demo" "pw" bodyEmptyToken "abc".data
    (.networkError : Outcome AuthBody)
  have h2 := c10_credential_frame fsEmpty "demo" "pw" bodyWithToken "abc".data
    (.networkError : Outcome AuthBody)
  exact ⟨rfl, (h1.1 rfl).1, rfl, (h2.2.1 rfl (by decide)).2⟩

end CShare
